import Mathlib

/-!
# go-shoot: WebSocket frame codec, handshake, lobby hub and room service

A shallow embedding of `internal/websocket/conn.go`, `internal/lobby/hub.go` and
`internal/rooms/service.go`.

Conventions of the embedding:

* a byte is a natural number; `byte(x)` conversions are written `% 256`;
* the read side of a connection (`c.rw`) is the list of bytes still to come, and every read
  returns the bytes it did not consume;
* Go's `int` is the 64-bit two's complement integer: a value is carried as its bit pattern in
  `Nat` (reduced `% 2 ^ 64`) and read back as a signed number by `toInt64`.
-/

namespace GoShoot

namespace Websocket

/-! ## Frame decoding: `Conn.ReadMessage` -/

/-- Errors that `ReadMessage` returns. -/
inductive ReadErr
  /-- The value `io.EOF`: the stream ended before the first byte of a read. -/
  | eof
  /-- The value `io.ErrUnexpectedEOF`: the stream ended in the middle of a read. -/
  | unexpectedEOF
  /-- The error "websocket: fragmented frames are not supported". -/
  | fragmented
deriving DecidableEq, Repr

/-- What one call of `ReadMessage` does: it returns `(opcode, payload, nil)`, it returns an
error, or it panics (in `make([]byte, payloadLen)`, with "makeslice: len out of range"). -/
inductive ReadResult
  | message (opcode : Int) (payload : List Nat)
  | error (e : ReadErr)
  | panic
deriving DecidableEq, Repr

/-- The call `io.ReadFull(c.rw, buf)` with `len(buf) = n` on the stream `s`: the bytes read (or
the error) and the stream left.  A read of no byte succeeds on every stream; a short read
consumes what there is. -/
def ReadFull (n : Nat) (s : List Nat) : Except ReadErr (List Nat) × List Nat :=
  if n ≤ s.length then (.ok (s.take n), s.drop n)
  else if s.length = 0 then (.error .eof, [])
  else (.error .unexpectedEOF, [])

/-- The constant `maxAlloc` of the Go runtime on a 64-bit platform with 48 address bits
(linux/amd64): `make([]byte, n)` panics for `n < 0` and for `n > maxAlloc`.  An allocation
within the limit succeeds: the memory of the machine is not a part of the embedding. -/
def maxAlloc : Nat := 2 ^ 48

/-- The signed value of the 64-bit pattern `u` (Go's `int`). -/
def toInt64 (u : Nat) : Int :=
  if u % 2 ^ 64 < 2 ^ 63 then ((u % 2 ^ 64 : Nat) : Int) else ((u % 2 ^ 64 : Nat) : Int) - 2 ^ 64

/-- The loop `for _, b := range ext { payloadLen = (payloadLen << 8) | int(b) }`, on the bit
pattern of `payloadLen`. -/
def accumLen (payloadLen : Nat) : List Nat → Nat
  | [] => payloadLen
  | b :: ext => accumLen (((payloadLen <<< 8) % 2 ^ 64) ||| b) ext

/-- The `switch payloadLen` of `ReadMessage`: the payload length as a Go `int`, after the
extension bytes (if any) are read. -/
def readPayloadLen (payloadLen : Nat) (s : List Nat) : Except ReadErr Int × List Nat :=
  if payloadLen = 126 then
    match ReadFull 2 s with
    | (.error e, s1) => (.error e, s1)
    | (.ok ext, s1) => (.ok (toInt64 ((ext.getD 0 0 <<< 8) ||| ext.getD 1 0)), s1)
  else if payloadLen = 127 then
    match ReadFull 8 s with
    | (.error e, s1) => (.error e, s1)
    | (.ok ext, s1) => (.ok (toInt64 (accumLen 0 ext)), s1)
  else (.ok (toInt64 payloadLen), s)

/-- The statement `if mask { io.ReadFull(c.rw, maskKey[:]) }`; the key is all zero when the
frame is not masked. -/
def readMaskKey (mask : Bool) (s : List Nat) : Except ReadErr (List Nat) × List Nat :=
  if mask then ReadFull 4 s else (.ok [0, 0, 0, 0], s)

/-- The loop `for i := ...; i++ { payload[i] ^= maskKey[i%4] }`, from index `i` on. -/
def unmaskFrom (maskKey : List Nat) : Nat → List Nat → List Nat
  | _, [] => []
  | i, b :: payload => (b ^^^ maskKey.getD (i % 4) 0) :: unmaskFrom maskKey (i + 1) payload

/-- The unmasking loop of `ReadMessage`, from index 0. -/
def unmask (maskKey payload : List Nat) : List Nat := unmaskFrom maskKey 0 payload

/-- The method `Conn.ReadMessage` on the stream `s`: its result and the stream left unread. -/
def ReadMessage (s : List Nat) : ReadResult × List Nat :=
  match ReadFull 2 s with
  | (.error e, s1) => (.error e, s1)
  | (.ok header, s1) =>
    let fin := header.getD 0 0 &&& 0x80 != 0
    let opcode : Int := ((header.getD 0 0 &&& 0x0F : Nat) : Int)
    if !fin then (.error .fragmented, s1)
    else
      let mask := header.getD 1 0 &&& 0x80 != 0
      match readPayloadLen (header.getD 1 0 &&& 0x7F) s1 with
      | (.error e, s2) => (.error e, s2)
      | (.ok payloadLen, s2) =>
        match readMaskKey mask s2 with
        | (.error e, s3) => (.error e, s3)
        | (.ok maskKey, s3) =>
          if payloadLen < 0 ∨ payloadLen > (maxAlloc : Int) then (.panic, s3)
          else
            match ReadFull payloadLen.toNat s3 with
            | (.error e, s4) => (.error e, s4)
            | (.ok payload, s4) =>
              (.message opcode (if mask then unmask maskKey payload else payload), s4)

/-- A read either fails at the end of the stream, having consumed it, or succeeds, and then
it does the same on every longer stream. -/
def Extends {α : Type} (f : List Nat → Except ReadErr α × List Nat) : Prop :=
  ∀ p q, (∃ e, f p = (.error e, []) ∧ (e = .eof ∨ e = .unexpectedEOF)) ∨
    (∃ a r, f p = (.ok a, r) ∧ f (p ++ q) = (.ok a, r ++ q))

/-! ## Frame encoding: `Conn.WriteMessage` -/

/-- The conversion `byte(x)` of a Go `int`. -/
def byte (x : Int) : Nat := (x % 256).toNat

/-- The header `WriteMessage` builds for an opcode and a payload length. -/
def frameHeader (opcode : Int) (length : Nat) : List Nat :=
  let header := [0x80 ||| byte opcode]
  if length ≤ 125 then header ++ [length % 256]
  else if length ≤ 65535 then header ++ [126, (length >>> 8) % 256, length % 256]
  else
    [7, 6, 5, 4, 3, 2, 1, 0].foldl (fun h i => h ++ [(length >>> (i * 8)) % 256])
      (header ++ [127])

/-- The bytes `WriteMessage(opcode, payload)` hands to `c.rw`: the header, then the payload. -/
def WriteMessage (opcode : Int) (payload : List Nat) : List Nat :=
  frameHeader opcode payload.length ++ payload


/-! ## Frames as the specification describes them -/

/-- The masking a client applies to a payload: byte `i` becomes `payload[i] XOR key[i mod 4]`. -/
def maskPayload (key payload : List Nat) : List Nat :=
  payload.enum.map fun p => p.2 ^^^ key.getD (p.1 % 4) 0

/-- The masked form of the frame `WriteMessage(opcode, payload)` writes: the mask bit of the
second byte is set, the key follows the length bytes, the payload is masked with the key. -/
def maskedFrame (opcode : Int) (payload key : List Nat) : List Nat :=
  let header := frameHeader opcode payload.length
  header.set 1 (header.getD 1 0 ||| 0x80) ++ key ++ maskPayload key payload

/-- The `k` big-endian bytes of `n`, most significant first. -/
def bigEndian (k n : Nat) : List Nat :=
  (List.range k).reverse.map fun i => n / 256 ^ i % 256

/-- The value of a big-endian byte sequence. -/
def fromBigEndian (bs : List Nat) : Nat := bs.foldl (fun acc b => acc * 256 + b) 0

/-- A complete frame with FIN set, as the specification lays it out: two header bytes, the
extended length (no byte, 2 or 8 big-endian bytes, as the 7-bit length field says), the 4-byte
mask key when the mask bit is set, and as many payload bytes as the length says. -/
def CompleteFrame (frame : List Nat) : Prop :=
  ∃ b0 b1 ext key payload,
    frame = b0 :: b1 :: (ext ++ key ++ payload) ∧ (∀ b ∈ frame, b < 256) ∧ b0 &&& 0x80 ≠ 0 ∧
    ((b1 &&& 0x7F ≤ 125 ∧ ext = [] ∧ payload.length = b1 &&& 0x7F) ∨
      (b1 &&& 0x7F = 126 ∧ ext.length = 2 ∧ payload.length = fromBigEndian ext) ∨
      (b1 &&& 0x7F = 127 ∧ ext.length = 8 ∧ payload.length = fromBigEndian ext)) ∧
    ((b1 &&& 0x80 ≠ 0 ∧ key.length = 4) ∨ (b1 &&& 0x80 = 0 ∧ key = []))

/-- The length field the specification gives for a payload of `l` bytes. -/
def lengthField (l : Nat) : List Nat :=
  if l ≤ 125 then [l]
  else if l ≤ 65535 then 126 :: bigEndian 2 l
  else 127 :: bigEndian 8 l

/-! ## The handshake: `Upgrade`

A Go string is the list of its bytes. -/

/-- The bytes of a string constant of the source (UTF-8). -/
def str (s : String) : List Nat := (s.data.flatMap String.utf8EncodeChar).map UInt8.toNat

/-! ### `crypto/sha1` (FIPS 180-4) -/

namespace Sha1

/-- Rotation of a 32-bit word to the left by `n` bits. -/
def rotl (n x : Nat) : Nat := ((x <<< n) ||| (x >>> (32 - n))) % 2 ^ 32

/-- The padded message: the bit 1, zero bits up to 56 bytes modulo 64, the bit length as 8
big-endian bytes. -/
def pad (msg : List Nat) : List Nat :=
  msg ++ 0x80 :: List.replicate ((119 - msg.length % 64) % 64) 0
    ++ bigEndian 8 (8 * msg.length % 2 ^ 64)

/-- The big-endian 32-bit words of a block. -/
def words : List Nat → List Nat
  | b0 :: b1 :: b2 :: b3 :: rest => (((b0 * 256 + b1) * 256 + b2) * 256 + b3) :: words rest
  | _ => []

/-- The message schedule, extended by `k` words. -/
def schedule : Nat → List Nat → List Nat
  | 0, w => w
  | k + 1, w =>
    let i := w.length
    schedule k (w ++ [rotl 1 (w.getD (i - 3) 0 ^^^ w.getD (i - 8) 0 ^^^ w.getD (i - 14) 0
      ^^^ w.getD (i - 16) 0)])

/-- The five working words. -/
structure State where
  a : Nat
  b : Nat
  c : Nat
  d : Nat
  e : Nat
deriving DecidableEq, Repr

/-- The round function of round `i`. -/
def f (i b c d : Nat) : Nat :=
  if i < 20 then (b &&& c) ||| ((b ^^^ 0xFFFFFFFF) &&& d)
  else if i < 40 then b ^^^ c ^^^ d
  else if i < 60 then (b &&& c) ||| (b &&& d) ||| (c &&& d)
  else b ^^^ c ^^^ d

/-- The round constant of round `i`. -/
def k (i : Nat) : Nat :=
  if i < 20 then 0x5A827999 else if i < 40 then 0x6ED9EBA1
  else if i < 60 then 0x8F1BBCDC else 0xCA62C1D6

/-- The rounds from round `i` on, one for each word of the schedule. -/
def rounds : Nat → List Nat → State → State
  | _, [], s => s
  | i, w :: ws, s =>
    rounds (i + 1) ws
      ⟨(rotl 5 s.a + f i s.b s.c s.d + s.e + k i + w) % 2 ^ 32, s.a, rotl 30 s.b, s.c, s.d⟩

/-- The compression of one 64-byte block into the hash value `h`. -/
def block (h : State) (chunk : List Nat) : State :=
  let s := rounds 0 (schedule 64 (words chunk)) h
  ⟨(h.a + s.a) % 2 ^ 32, (h.b + s.b) % 2 ^ 32, (h.c + s.c) % 2 ^ 32, (h.d + s.d) % 2 ^ 32,
    (h.e + s.e) % 2 ^ 32⟩

/-- The compression of `n` blocks in a row. -/
def blocks : Nat → State → List Nat → State
  | 0, h, _ => h
  | n + 1, h, msg => blocks n (block h (msg.take 64)) (msg.drop 64)

/-- The function `sha1.Sum`: the 20 bytes of the SHA-1 digest. -/
def Sum (msg : List Nat) : List Nat :=
  let p := pad msg
  let h := blocks (p.length / 64) ⟨0x67452301, 0xEFCDAB89, 0x98BADCFE, 0x10325476, 0xC3D2E1F0⟩ p
  bigEndian 4 h.a ++ bigEndian 4 h.b ++ bigEndian 4 h.c ++ bigEndian 4 h.d ++ bigEndian 4 h.e

end Sha1

/-! ### `encoding/base64` (RFC 4648, standard alphabet, padded) -/

namespace Base64

/-- The standard alphabet. -/
def encodeStd : List Nat :=
  str "ABCDEFGHIJKLMNOPQRSTUVWXYZabcdefghijklmnopqrstuvwxyz0123456789+/"

/-- The character of a 6-bit value. -/
def enc (v : Nat) : Nat := encodeStd.getD v 0

/-- The method `base64.StdEncoding.EncodeToString`. -/
def EncodeToString : List Nat → List Nat
  | b0 :: b1 :: b2 :: rest =>
    enc (b0 >>> 2) :: enc (((b0 &&& 3) <<< 4) ||| (b1 >>> 4)) ::
      enc (((b1 &&& 15) <<< 2) ||| (b2 >>> 6)) :: enc (b2 &&& 63) :: EncodeToString rest
  | [b0, b1] =>
    [enc (b0 >>> 2), enc (((b0 &&& 3) <<< 4) ||| (b1 >>> 4)), enc ((b1 &&& 15) <<< 2), 61]
  | [b0] => [enc (b0 >>> 2), enc ((b0 &&& 3) <<< 4), 61, 61]
  | [] => []

end Base64

/-- The request, as far as `Upgrade` reads it: `r.Header.Get(name)`, the first value of the
header `name`, empty when the header is absent. -/
structure Request where
  headerGet : List Nat → List Nat

/-- How the response writer and the connection behind it answer: whether `w` is an
`http.Hijacker`, the error of `Hijack()`, the error of the `i`-th `WriteString`, the error of
`Flush()` (`none` for `nil`). -/
structure Transport where
  hijacker : Bool
  hijackErr : Option String
  writeErr : Nat → Option String
  flushErr : Option String

/-- The errors `Upgrade` returns. -/
inductive UpgradeErr
  | missingUpgrade
  | unsupportedProtocol
  | missingKey
  | cannotHijack
  | hijackFailed (err : String)
  | transport (err : String)
deriving DecidableEq, Repr

/-- The text of an error. -/
def UpgradeErr.Error : UpgradeErr → String
  | .missingUpgrade => "websocket: missing upgrade request"
  | .unsupportedProtocol => "websocket: unsupported upgrade protocol"
  | .missingKey => "websocket: missing key"
  | .cannotHijack => "websocket: response writer cannot hijack connection"
  | .hijackFailed err => "websocket: hijack failed: " ++ err
  | .transport err => err

/-- What `Upgrade` did to the transport: whether it took the connection over, the bytes it
handed to `rw` in order, whether `Flush` returned without error, whether it closed the
connection. -/
structure Effects where
  hijacked : Bool
  written : List Nat
  flushed : Bool
  closed : Bool
deriving DecidableEq, Repr

/-- The constant `acceptGUID`. -/
def acceptGUID : List Nat := str "258EAFA5-E914-47DA-95CA-C5AB0DC85B11"

/-- The accept value of a key: lines 36 to 38 of `Upgrade`. -/
def acceptKey (key : List Nat) : List Nat :=
  let sum := Sha1.Sum (key ++ acceptGUID)
  Base64.EncodeToString sum

/-- The function `Upgrade`: its result (`ok` for a `*Conn`) and what it did to the transport.
`ToLower` is `strings.ToLower`; `strings.Contains` is the infix relation. -/
def Upgrade (ToLower : List Nat → List Nat) (w : Transport) (r : Request) :
    Except UpgradeErr Unit × Effects :=
  if ¬ (str "upgrade" <:+: ToLower (r.headerGet (str "Connection"))) then
    (.error .missingUpgrade, ⟨false, [], false, false⟩)
  else if ToLower (r.headerGet (str "Upgrade")) ≠ str "websocket" then
    (.error .unsupportedProtocol, ⟨false, [], false, false⟩)
  else
    let key := r.headerGet (str "Sec-WebSocket-Key")
    if key = [] then (.error .missingKey, ⟨false, [], false, false⟩)
    else
      let accept := acceptKey key
      if !w.hijacker then (.error .cannotHijack, ⟨false, [], false, false⟩)
      else
        match w.hijackErr with
        | some err => (.error (.hijackFailed err), ⟨false, [], false, false⟩)
        | none =>
          let out0 : List Nat := []
          match w.writeErr 0 with
          | some err => (.error (.transport err), ⟨true, out0, false, true⟩)
          | none =>
            let out1 := out0 ++ str "HTTP/1.1 101 Switching Protocols\r\n"
            match w.writeErr 1 with
            | some err => (.error (.transport err), ⟨true, out1, false, true⟩)
            | none =>
              let out2 := out1 ++ str "Upgrade: websocket\r\n"
              match w.writeErr 2 with
              | some err => (.error (.transport err), ⟨true, out2, false, true⟩)
              | none =>
                let out3 := out2 ++ str "Connection: Upgrade\r\n"
                match w.writeErr 3 with
                | some err => (.error (.transport err), ⟨true, out3, false, true⟩)
                | none =>
                  let out4 := out3 ++ (str "Sec-WebSocket-Accept: " ++ accept ++ str "\r\n\r\n")
                  match w.flushErr with
                  | some err => (.error (.transport err), ⟨true, out4, false, true⟩)
                  | none => (.ok (), ⟨true, out4, true, false⟩)

/-- The response of a successful handshake, as the specification lists it. -/
def handshakeResponse (accept : List Nat) : List Nat :=
  str "HTTP/1.1 101 Switching Protocols\r\nUpgrade: websocket\r\nConnection: Upgrade\r\nSec-WebSocket-Accept: "
    ++ accept ++ str "\r\n\r\n"

/-- A transport that `Upgrade` has not touched. -/
def untouched : Effects := ⟨false, [], false, false⟩

/-- Lower-casing of the ASCII letters: `strings.ToLower` on ASCII text. -/
def asciiToLower (s : List Nat) : List Nat := s.map fun b => if 65 ≤ b ∧ b ≤ 90 then b + 32 else b

/-- A request with the three headers of a WebSocket upgrade. -/
def sampleRequest : Request :=
  ⟨fun name =>
    if name = str "Connection" then str "keep-alive, Upgrade"
    else if name = str "Upgrade" then str "WebSocket"
    else if name = str "Sec-WebSocket-Key" then str "dGhlIHNhbXBsZSBub25jZQ=="
    else []⟩

/-- A transport that can be taken over and on which every write succeeds. -/
def goodTransport : Transport := ⟨true, none, fun _ => none, none⟩

end Websocket

/-! ## The lobby hub: `internal/lobby/hub.go` -/

namespace Lobby

/-- A `Connection` value, by its identity. -/
abbrev Connection := Nat

/-- The hub: `rooms map[string]map[Connection]struct{}`.  A member set is the list of its
members without repetition, in the order a `range` over it visits them (Go leaves that order
unspecified). -/
structure Hub where
  rooms : String → Option (List Connection)

/-- The member sets of a hub are sets: no connection is listed twice. -/
def Hub.WF (h : Hub) : Prop := ∀ roomID clients, h.rooms roomID = some clients → clients.Nodup

/-- The members of a room; none when the room is absent. -/
def Hub.members (h : Hub) (roomID : String) : List Connection := (h.rooms roomID).getD []

/-- The function `NewHub`. -/
def NewHub : Hub := ⟨fun _ => none⟩

/-- The assignment `m[k] = v` on the room mapping. -/
def Hub.set (h : Hub) (roomID : String) (clients : List Connection) : Hub :=
  ⟨fun r => if r = roomID then some clients else h.rooms r⟩

/-- The statement `delete(h.rooms, roomID)`. -/
def Hub.delete (h : Hub) (roomID : String) : Hub :=
  ⟨fun r => if r = roomID then none else h.rooms r⟩

/-- The state change of `Hub.Register(roomID, conn)`. -/
def Register (h : Hub) (roomID : String) (conn : Connection) : Hub :=
  let h1 := match h.rooms roomID with
    | none => h.set roomID []
    | some _ => h
  let clients := h1.members roomID
  h1.set roomID (if conn ∈ clients then clients else clients ++ [conn])

/-- The cleanup function that `Hub.Register(roomID, conn)` returns, as a state change. -/
def cleanup (roomID : String) (conn : Connection) (h : Hub) : Hub :=
  match h.rooms roomID with
  | none => h
  | some clients =>
    let clients1 := clients.erase conn
    if clients1.length = 0 then h.delete roomID else h.set roomID clients1

/-- One call `conn.WriteMessage(opcode, payload)` made by the hub, with the error it
returned (`none` for `nil`). -/
structure Call where
  conn : Connection
  opcode : Int
  payload : List Nat
  err : Option String
deriving DecidableEq, Repr

/-- The loop of `Broadcast` over the members of the room: the sender is skipped, every other
member is written to, and the error of a write is dropped. -/
def broadcastLoop (write : Connection → Int → List Nat → Option String) (payload : List Nat)
    (sender : Connection) : List Connection → List Call
  | [] => []
  | conn :: clients =>
    if conn = sender then broadcastLoop write payload sender clients
    else ⟨conn, 1, payload, write conn 1 payload⟩ :: broadcastLoop write payload sender clients

/-- The calls of `WriteMessage` that `Hub.Broadcast(roomID, payload, sender)` makes, in order;
`write` gives the error each connection's `WriteMessage` returns. -/
def Broadcast (h : Hub) (write : Connection → Int → List Nat → Option String) (roomID : String)
    (payload : List Nat) (sender : Connection) : List Call :=
  match h.rooms roomID with
  | none => []
  | some clients => broadcastLoop write payload sender clients

/-- A hub with the single room "r1" of three connections. -/
def sampleHub : Hub := ⟨fun r => if r = "r1" then some [1, 2, 3] else none⟩

/-- Writes to connection 1 fail, the others succeed. -/
def sampleWrite : Connection → Int → List Nat → Option String :=
  fun c _ _ => if c = 1 then some "broken pipe" else none

/-- One call on the hub: `Register(roomID, conn)`, or a call of the cleanup function of the
pair `(roomID, conn)`. -/
inductive Op
  | register (roomID : String) (conn : Connection)
  | cleanup (roomID : String) (conn : Connection)
deriving DecidableEq, Repr

/-- The state change of one call. -/
def Op.apply (h : Hub) : Op → Hub
  | .register roomID conn => Register h roomID conn
  | .cleanup roomID conn => Lobby.cleanup roomID conn h

/-- The hub after a sequence of calls on `NewHub()`.  Every sequence of `Register` calls and
of calls of the cleanup functions they returned, in any order and any number of times, is such
a sequence. -/
def run (ops : List Op) : Hub := ops.foldl Op.apply NewHub

/-- No room of the hub is empty, and every member set is a set. -/
def Hub.Inv (h : Hub) : Prop :=
  ∀ roomID clients, h.rooms roomID = some clients → clients ≠ [] ∧ clients.Nodup

end Lobby

/-! ## The room service: `internal/rooms/service.go` -/

namespace Rooms

/-- The struct `Room`; `CreatedAt` is a point in time, as a number. -/
structure Room where
  ID : String
  Name : String
  CreatedAt : Nat
  Players : List String
deriving DecidableEq, Repr

/-- The zero value `Room{}`, returned next to an error. -/
def Room.zero : Room := ⟨"", "", 0, []⟩

/-- The service: `rooms map[string]Room`. -/
structure Service where
  rooms : String → Option Room

/-- The function `NewService`. -/
def NewService : Service := ⟨fun _ => none⟩

/-- The errors of the service. -/
inductive Err
  /-- The error "player name must be provided". -/
  | playerNameMissing
  /-- The error "room %s not found". -/
  | notFound (id : String)
  /-- The error "room is full". -/
  | full
deriving DecidableEq, Repr

/-- The assignment `s.rooms[id] = room`. -/
def Service.set (s : Service) (id : String) (room : Room) : Service :=
  ⟨fun r => if r = id then some room else s.rooms r⟩

/-- The method `Service.Create`: the room and error returned, and the service after the call.
The results of `generateID()` and of `time.Now().UTC()` are given. -/
def Create (s : Service) (generateID : String) (now : Nat) (name : String) :
    (Room × Option Err) × Service :=
  let name := if name = "" then "Quick Match" else name
  let room : Room := ⟨generateID, name, now, []⟩
  ((room, none), s.set room.ID room)

/-- The method `Service.Get`. -/
def Get (s : Service) (id : String) : Room × Option Err :=
  match s.rooms id with
  | none => (Room.zero, some (.notFound id))
  | some room => (room, none)

/-- The loop `for _, existing := range room.Players { if existing == player ... }`: whether it
finds the player. -/
def hasPlayer (player : String) : List String → Bool
  | [] => false
  | existing :: players => if existing = player then true else hasPlayer player players

/-- The method `Service.AddPlayer`: the room and error returned, and the service after the
call. -/
def AddPlayer (s : Service) (id player : String) : (Room × Option Err) × Service :=
  if player = "" then ((Room.zero, some .playerNameMissing), s)
  else
    match s.rooms id with
    | none => ((Room.zero, some (.notFound id)), s)
    | some room =>
      if room.Players.length ≥ 4 then ((Room.zero, some .full), s)
      else if hasPlayer player room.Players then ((room, none), s)
      else
        let room1 : Room := { room with Players := room.Players ++ [player] }
        ((room1, none), s.set id room1)

/-- One call that changes the service. -/
inductive Op
  | create (generateID : String) (now : Nat) (name : String)
  | addPlayer (id player : String)
deriving DecidableEq, Repr

/-- The service after one call. -/
def Op.apply (s : Service) : Op → Service
  | .create generateID now name => (Create s generateID now name).2
  | .addPlayer id player => (AddPlayer s id player).2

/-- The service after a sequence of `Create` and `AddPlayer` calls on `NewService()`. -/
def run (ops : List Op) : Service := ops.foldl Op.apply NewService

/-- Every stored room has at most 4 players, no player twice and no empty player name. -/
def Service.Inv (s : Service) : Prop :=
  ∀ id room, s.rooms id = some room →
    room.Players.length ≤ 4 ∧ room.Players.Nodup ∧ "" ∉ room.Players

/-- A service whose room "r" is full. -/
def fullService : Service :=
  run [.create "r" 0 "", .addPlayer "r" "alice", .addPlayer "r" "bob", .addPlayer "r" "carol",
    .addPlayer "r" "dave"]

end Rooms

namespace Websocket

/-! ## Lemmas on reads -/

theorem ReadFull_append (a r : List Nat) : ReadFull a.length (a ++ r) = (.ok a, r) := by
  simp [ReadFull]

theorem ReadFull_zero (s : List Nat) : ReadFull 0 s = (.ok [], s) := by
  simp [ReadFull]

theorem ReadFull_two (b0 b1 : Nat) (s : List Nat) :
    ReadFull 2 (b0 :: b1 :: s) = (.ok [b0, b1], s) := by
  simp [ReadFull]

theorem ReadFull_ok_length {n : Nat} {s a r : List Nat} (h : ReadFull n s = (.ok a, r)) :
    a.length = n ∧ s = a ++ r := by
  unfold ReadFull at h
  split at h
  · simp only [Prod.mk.injEq, Except.ok.injEq] at h
    obtain ⟨rfl, rfl⟩ := h
    simp [*]
  · split at h <;> simp at h

theorem maxAlloc_lt {n : Nat} (h : n ≤ maxAlloc) : n < 2 ^ 63 := by
  unfold maxAlloc at h
  omega

theorem toInt64_of_lt {u : Nat} (h : u < 2 ^ 63) : toInt64 u = (u : Int) := by
  have h1 : u % 2 ^ 64 = u := Nat.mod_eq_of_lt (by omega)
  unfold toInt64
  rw [h1, if_pos h]

theorem toInt64_neg {u : Nat} (h1 : 2 ^ 63 ≤ u) (h2 : u < 2 ^ 64) : toInt64 u < 0 := by
  have h3 : u % 2 ^ 64 = u := Nat.mod_eq_of_lt h2
  have h4 : ¬ u < 2 ^ 63 := by omega
  unfold toInt64
  rw [h3, if_neg h4]
  omega

theorem shl8_or (a b : Nat) (hb : b < 256) : (a <<< 8) ||| b = a * 256 + b := by
  have h := Nat.mul_add_lt_is_or (i := 8) (b := b) (by simpa using hb) a
  rw [Nat.shiftLeft_eq, Nat.mul_comm a, ← h]

theorem accum_step (p b : Nat) (hp : p < 2 ^ 56) (hb : b < 256) :
    ((p <<< 8) % 2 ^ 64) ||| b = p * 256 + b := by
  have h1 : (p <<< 8) % 2 ^ 64 = p <<< 8 := by
    apply Nat.mod_eq_of_lt
    rw [Nat.shiftLeft_eq]
    omega
  rw [h1, shl8_or p b hb]

theorem readPayloadLen_small {l : Nat} (h : l ≤ 125) (s : List Nat) :
    readPayloadLen l s = (.ok (l : Int), s) := by
  have h1 : l ≠ 126 := by omega
  have h2 : l ≠ 127 := by omega
  simp only [readPayloadLen, h1, h2, if_false]
  rw [toInt64_of_lt (by omega)]

theorem readPayloadLen_126 (e0 e1 : Nat) (s : List Nat) (h0 : e0 < 256) (h1 : e1 < 256) :
    readPayloadLen 126 (e0 :: e1 :: s) = (.ok ((e0 * 256 + e1 : Nat) : Int), s) := by
  simp only [readPayloadLen, ReadFull_two, if_true, List.getD_cons_zero, List.getD_cons_succ]
  rw [shl8_or _ _ h1, toInt64_of_lt (by omega)]

theorem accumLen_eight (e0 e1 e2 e3 e4 e5 e6 e7 : Nat) (h0 : e0 < 256) (h1 : e1 < 256)
    (h2 : e2 < 256) (h3 : e3 < 256) (h4 : e4 < 256) (h5 : e5 < 256) (h6 : e6 < 256)
    (h7 : e7 < 256) :
    accumLen 0 [e0, e1, e2, e3, e4, e5, e6, e7] =
      e0 * 2 ^ 56 + e1 * 2 ^ 48 + e2 * 2 ^ 40 + e3 * 2 ^ 32 + e4 * 2 ^ 24 + e5 * 2 ^ 16
        + e6 * 2 ^ 8 + e7 := by
  simp only [accumLen]
  rw [accum_step _ _ (by omega) h0, accum_step _ _ (by omega) h1,
    accum_step _ _ (by omega) h2, accum_step _ _ (by omega) h3,
    accum_step _ _ (by omega) h4, accum_step _ _ (by omega) h5,
    accum_step _ _ (by omega) h6, accum_step _ _ (by omega) h7]
  omega

theorem readPayloadLen_127 (ext s : List Nat) (h : ext.length = 8) :
    readPayloadLen 127 (ext ++ s) = (.ok (toInt64 (accumLen 0 ext)), s) := by
  have h1 : ReadFull 8 (ext ++ s) = (.ok ext, s) := h ▸ ReadFull_append ext s
  simp [readPayloadLen, h1]

/-- A stream whose two header bytes have FIN set, whose length field decodes to `n` and
which then holds the mask key (if any) and `n` payload bytes, is read as one message. -/
theorem ReadMessage_of_parts (b0 b1 n : Nat) (s s2 key payload rest : List Nat)
    (hfin : b0 &&& 0x80 ≠ 0)
    (hlen : readPayloadLen (b1 &&& 0x7F) s = (.ok (n : Int), s2))
    (hkey : readMaskKey (b1 &&& 0x80 != 0) s2 = (.ok key, payload ++ rest))
    (hn : payload.length = n) (hmax : n ≤ maxAlloc) :
    ReadMessage (b0 :: b1 :: s) =
      (.message ((b0 &&& 0x0F : Nat) : Int)
        (if (b1 &&& 0x80 != 0) = true then unmask key payload else payload), rest) := by
  have h1 : ReadFull (n : Int).toNat (payload ++ rest) = (.ok payload, rest) := by
    rw [Int.toNat_ofNat, ← hn]
    exact ReadFull_append payload rest
  have h2 : ¬ ((n : Int) < 0 ∨ (n : Int) > (maxAlloc : Int)) := by omega
  simp only [ReadMessage, ReadFull_two, List.getD_cons_zero, List.getD_cons_succ, hlen, hkey,
    h1, h2, if_false]
  simp [hfin]

theorem readPayloadLen_127_bytes (e0 e1 e2 e3 e4 e5 e6 e7 : Nat) (s : List Nat) (h0 : e0 < 256)
    (h1 : e1 < 256) (h2 : e2 < 256) (h3 : e3 < 256) (h4 : e4 < 256) (h5 : e5 < 256)
    (h6 : e6 < 256) (h7 : e7 < 256) :
    readPayloadLen 127 (e0 :: e1 :: e2 :: e3 :: e4 :: e5 :: e6 :: e7 :: s) =
      (.ok (toInt64 (e0 * 2 ^ 56 + e1 * 2 ^ 48 + e2 * 2 ^ 40 + e3 * 2 ^ 32 + e4 * 2 ^ 24
        + e5 * 2 ^ 16 + e6 * 2 ^ 8 + e7)), s) := by
  have h := readPayloadLen_127 [e0, e1, e2, e3, e4, e5, e6, e7] s rfl
  rw [accumLen_eight e0 e1 e2 e3 e4 e5 e6 e7 h0 h1 h2 h3 h4 h5 h6 h7] at h
  exact h

/-- Every unmasked frame header with the length field 127 whose first extension byte has its
top bit set makes `ReadMessage` panic: the length is a negative `int`. -/
theorem ReadMessage_sign_bit_panics (b0 e0 e1 e2 e3 e4 e5 e6 e7 : Nat) (rest : List Nat)
    (hfin : b0 &&& 0x80 ≠ 0) (hs : 128 ≤ e0) (h0 : e0 < 256) (h1 : e1 < 256) (h2 : e2 < 256)
    (h3 : e3 < 256) (h4 : e4 < 256) (h5 : e5 < 256) (h6 : e6 < 256) (h7 : e7 < 256) :
    ReadMessage (b0 :: 127 :: e0 :: e1 :: e2 :: e3 :: e4 :: e5 :: e6 :: e7 :: rest)
      = (.panic, rest) := by
  have hl := readPayloadLen_127_bytes e0 e1 e2 e3 e4 e5 e6 e7 rest h0 h1 h2 h3 h4 h5 h6 h7
  have hneg := toInt64_neg (u := e0 * 2 ^ 56 + e1 * 2 ^ 48 + e2 * 2 ^ 40 + e3 * 2 ^ 32
    + e4 * 2 ^ 24 + e5 * 2 ^ 16 + e6 * 2 ^ 8 + e7) (by omega) (by omega)
  have h127 : (127 : Nat) &&& 0x7F = 127 := by decide
  have h128 : ((127 : Nat) &&& 0x80 != 0) = false := by decide
  simp only [ReadMessage, ReadFull_two, List.getD_cons_zero, List.getD_cons_succ, h127, h128,
    hl, readMaskKey, hneg, true_or, if_true]
  simp [hfin]

theorem ReadMessage_unmasked (b0 b1 n : Nat) (s payload rest : List Nat)
    (hfin : b0 &&& 0x80 ≠ 0) (hmask : b1 &&& 0x80 = 0)
    (hlen : readPayloadLen (b1 &&& 0x7F) s = (.ok (n : Int), payload ++ rest))
    (hn : payload.length = n) (hmax : n ≤ maxAlloc) :
    ReadMessage (b0 :: b1 :: s) = (.message ((b0 &&& 0x0F : Nat) : Int) payload, rest) := by
  have h := ReadMessage_of_parts b0 b1 n s (payload ++ rest) [0, 0, 0, 0] payload rest hfin hlen
    (by simp [readMaskKey, hmask]) hn hmax
  simpa [hmask] using h

theorem ReadMessage_masked (b0 b1 n : Nat) (s key payload rest : List Nat)
    (hfin : b0 &&& 0x80 ≠ 0) (hmask : b1 &&& 0x80 ≠ 0)
    (hlen : readPayloadLen (b1 &&& 0x7F) s = (.ok (n : Int), key ++ (payload ++ rest)))
    (hk : key.length = 4) (hn : payload.length = n) (hmax : n ≤ maxAlloc) :
    ReadMessage (b0 :: b1 :: s) =
      (.message ((b0 &&& 0x0F : Nat) : Int) (unmask key payload), rest) := by
  have hkey : readMaskKey (b1 &&& 0x80 != 0) (key ++ (payload ++ rest))
      = (.ok key, payload ++ rest) := by
    have h4 := ReadFull_append key (payload ++ rest)
    rw [hk] at h4
    simp [readMaskKey, hmask, h4]
  have h := ReadMessage_of_parts b0 b1 n s _ key payload rest hfin hlen hkey hn hmax
  simpa [hmask] using h

theorem and_128_of_lt : ∀ x, x < 128 → x &&& 0x80 = 0 := by decide

theorem and_127_of_lt : ∀ x, x < 128 → x &&& 0x7F = x := by decide

theorem header_byte (opcode : Int) (h0 : 0 ≤ opcode) (h1 : opcode ≤ 15) :
    (0x80 ||| byte opcode) &&& 0x80 ≠ 0 ∧
      (((0x80 ||| byte opcode) &&& 0x0F : Nat) : Int) = opcode := by
  interval_cases opcode <;> decide

theorem frameHeader_small (opcode : Int) {l : Nat} (h : l ≤ 125) :
    frameHeader opcode l = [0x80 ||| byte opcode, l] := by
  simp [frameHeader, h, Nat.mod_eq_of_lt (show l < 256 by omega)]

theorem frameHeader_medium (opcode : Int) {l : Nat} (h1 : 125 < l) (h2 : l ≤ 65535) :
    frameHeader opcode l = [0x80 ||| byte opcode, 126, l / 256, l % 256] := by
  have h3 : ¬ l ≤ 125 := by omega
  have h4 : l / 256 % 256 = l / 256 := by omega
  simp [frameHeader, h3, h2, Nat.shiftRight_eq_div_pow, h4]

theorem frameHeader_large (opcode : Int) {l : Nat} (h1 : 65535 < l) :
    frameHeader opcode l = [0x80 ||| byte opcode, 127, l / 2 ^ 56 % 256, l / 2 ^ 48 % 256,
      l / 2 ^ 40 % 256, l / 2 ^ 32 % 256, l / 2 ^ 24 % 256, l / 2 ^ 16 % 256, l / 2 ^ 8 % 256,
      l % 256] := by
  have h3 : ¬ l ≤ 125 := by omega
  have h4 : ¬ l ≤ 65535 := by omega
  simp [frameHeader, h3, h4, Nat.shiftRight_eq_div_pow]

theorem or_128_and_127 : ∀ x, x < 128 → (x ||| 0x80) &&& 0x7F = x := by decide

theorem or_128_and_128 : ∀ x, x < 128 → (x ||| 0x80) &&& 0x80 ≠ 0 := by decide

/-- The header that `WriteMessage` builds is the first byte, a second byte below 128 and the
extension bytes, and the decoder reads the length `l` back from it, whether or not the mask
bit is then set on the second byte. -/
theorem readPayloadLen_frameHeader (opcode : Int) (l : Nat) (hl : l < 2 ^ 63) (s : List Nat) :
    ∃ b1 ext, frameHeader opcode l = (0x80 ||| byte opcode) :: b1 :: ext ∧ b1 < 128 ∧
      readPayloadLen b1 (ext ++ s) = (.ok (l : Int), s) := by
  by_cases h1 : l ≤ 125
  · exact ⟨l, [], frameHeader_small opcode h1, by omega, readPayloadLen_small h1 _⟩
  · by_cases h2 : l ≤ 65535
    · refine ⟨126, [l / 256, l % 256], frameHeader_medium opcode (by omega) h2, by omega, ?_⟩
      have h := readPayloadLen_126 (l / 256) (l % 256) s (by omega) (by omega)
      have h3 : l / 256 * 256 + l % 256 = l := by omega
      rw [h3] at h
      exact h
    · refine ⟨127, _, frameHeader_large opcode (by omega), by omega, ?_⟩
      rw [readPayloadLen_127 _ _ (by rfl), accumLen_eight _ _ _ _ _ _ _ _ (by omega) (by omega)
        (by omega) (by omega) (by omega) (by omega) (by omega) (by omega)]
      have h3 : l / 2 ^ 56 % 256 * 2 ^ 56 + l / 2 ^ 48 % 256 * 2 ^ 48 + l / 2 ^ 40 % 256 * 2 ^ 40
          + l / 2 ^ 32 % 256 * 2 ^ 32 + l / 2 ^ 24 % 256 * 2 ^ 24 + l / 2 ^ 16 % 256 * 2 ^ 16
          + l / 2 ^ 8 % 256 * 2 ^ 8 + l % 256 = l := by omega
      rw [h3, toInt64_of_lt hl]

/-- Two frames in a row: the decoder reads exactly the bytes of the frame written. -/
theorem ReadMessage_WriteMessage_append (opcode : Int) (payload rest : List Nat)
    (h0 : 0 ≤ opcode) (h1 : opcode ≤ 15) (hl : payload.length ≤ maxAlloc) :
    ReadMessage (WriteMessage opcode payload ++ rest) = (.message opcode payload, rest) := by
  obtain ⟨b1, ext, hh, hb, hlen⟩ :=
    readPayloadLen_frameHeader opcode payload.length (maxAlloc_lt hl) (payload ++ rest)
  obtain ⟨hfin, hop⟩ := header_byte opcode h0 h1
  have h := ReadMessage_unmasked (0x80 ||| byte opcode) b1 payload.length
    (ext ++ (payload ++ rest)) payload rest hfin (and_128_of_lt b1 hb)
    (by rw [and_127_of_lt b1 hb]; exact hlen) rfl hl
  rw [hop] at h
  rw [← h, WriteMessage, hh]
  simp

theorem unmaskFrom_mask (key : List Nat) (payload : List Nat) (i : Nat) :
    unmaskFrom key i ((payload.enumFrom i).map fun p => p.2 ^^^ key.getD (p.1 % 4) 0)
      = payload := by
  induction payload generalizing i with
  | nil => rfl
  | cons b bs ih =>
    simp only [List.enumFrom, List.map, unmaskFrom, ih]
    rw [Nat.xor_assoc, Nat.xor_self, Nat.xor_zero]

theorem unmask_maskPayload (key payload : List Nat) :
    unmask key (maskPayload key payload) = payload :=
  unmaskFrom_mask key payload 0

theorem maskPayload_length (key payload : List Nat) :
    (maskPayload key payload).length = payload.length := by
  simp [maskPayload]

theorem lengthField_eq (opcode : Int) (l : Nat) :
    frameHeader opcode l = (0x80 ||| byte opcode) :: lengthField l := by
  by_cases h1 : l ≤ 125
  · simp [frameHeader_small opcode h1, lengthField, h1]
  · by_cases h2 : l ≤ 65535
    · rw [frameHeader_medium opcode (by omega) h2]
      have h3 : l / 256 % 256 = l / 256 := by omega
      simp [lengthField, h1, h2, bigEndian, List.range_succ, h3]
    · rw [frameHeader_large opcode (by omega)]
      simp [lengthField, h1, h2, bigEndian, List.range_succ]

theorem ReadFull_extends (n : Nat) : Extends (ReadFull n) := by
  intro p q
  by_cases h : n ≤ p.length
  · right
    refine ⟨p.take n, p.drop n, by simp [ReadFull, h], ?_⟩
    have h2 : n ≤ p.length + q.length := by omega
    simp [ReadFull, h, h2, List.take_append_of_le_length h, List.drop_append_of_le_length h]
  · left
    by_cases h0 : p.length = 0
    · exact ⟨.eof, by simp only [ReadFull, if_neg h, if_pos h0], Or.inl rfl⟩
    · exact ⟨.unexpectedEOF, by simp only [ReadFull, if_neg h, if_neg h0], Or.inr rfl⟩

theorem readPayloadLen_extends (l : Nat) : Extends (readPayloadLen l) := by
  intro p q
  unfold readPayloadLen
  by_cases h1 : l = 126
  · rcases ReadFull_extends 2 p q with ⟨e, he, hh⟩ | ⟨a, r, ha, hq⟩
    · exact Or.inl ⟨e, by simp [h1, he], hh⟩
    · exact Or.inr ⟨toInt64 ((a.getD 0 0 <<< 8) ||| a.getD 1 0), r,
        by simp only [h1, if_true, ha], by simp only [h1, if_true, hq]⟩
  · by_cases h2 : l = 127
    · have h3 : ¬ (127 = 126) := by decide
      rcases ReadFull_extends 8 p q with ⟨e, he, hh⟩ | ⟨a, r, ha, hq⟩
      · exact Or.inl ⟨e, by simp [h2, he], hh⟩
      · exact Or.inr ⟨toInt64 (accumLen 0 a), r, by simp only [h2, if_true, ha, if_neg h3],
          by simp only [h2, if_true, hq, if_neg h3]⟩
    · exact Or.inr ⟨toInt64 l, p, by simp only [h1, h2, if_false],
        by simp only [h1, h2, if_false]⟩

theorem readMaskKey_extends (mask : Bool) : Extends (readMaskKey mask) := by
  intro p q
  cases mask with
  | true => simpa [readMaskKey] using ReadFull_extends 4 p q
  | false => exact Or.inr ⟨[0, 0, 0, 0], p, by simp [readMaskKey], by simp [readMaskKey]⟩

/-- The dichotomy for `ReadMessage`: on a stream `p` it fails at the end of the stream, or it
does on every longer stream `p ++ q` what it does on `p`, leaving `q` unread as well. -/
theorem ReadMessage_extends (p q : List Nat) :
    (∃ e, ReadMessage p = (.error e, []) ∧ (e = .eof ∨ e = .unexpectedEOF)) ∨
      ReadMessage (p ++ q) = ((ReadMessage p).1, (ReadMessage p).2 ++ q) := by
  unfold ReadMessage
  rcases ReadFull_extends 2 p q with ⟨e, he, hh⟩ | ⟨header, s1, h1, h1q⟩
  · exact Or.inl ⟨e, by simp only [he], hh⟩
  simp only [h1, h1q]
  cases hfin : (header.getD 0 0 &&& 0x80 != 0)
  · right
    simp only [Bool.not_false, if_true]
  simp only [Bool.not_true, Bool.false_eq_true, if_false]
  rcases readPayloadLen_extends (header.getD 1 0 &&& 0x7F) s1 q with
    ⟨e, he, hh⟩ | ⟨n, s2, h2, h2q⟩
  · exact Or.inl ⟨e, by simp only [he], hh⟩
  simp only [h2, h2q]
  rcases readMaskKey_extends (header.getD 1 0 &&& 0x80 != 0) s2 q with
    ⟨e, he, hh⟩ | ⟨key, s3, h3, h3q⟩
  · exact Or.inl ⟨e, by simp only [he], hh⟩
  simp only [h3, h3q]
  by_cases hneg : n < 0 ∨ n > (maxAlloc : Int)
  · right
    simp only [hneg, if_true]
  simp only [hneg, if_false]
  rcases ReadFull_extends n.toNat s3 q with ⟨e, he, hh⟩ | ⟨payload, s4, h4, h4q⟩
  · exact Or.inl ⟨e, by simp only [he], hh⟩
  right
  simp only [h4, h4q]

end Websocket

/-! ## The claims on the frame codec -/

open Websocket

/-- C1: for every opcode in 0..15 and every payload (a Go slice, so of at most `maxAlloc`
bytes), `ReadMessage` on exactly the bytes `WriteMessage(opcode, payload)` writes returns
`(opcode, payload)` with no error, and nothing is left unread. -/
theorem unmasked_round_trip (opcode : Int) (payload : List Nat) (h0 : 0 ≤ opcode)
    (h1 : opcode ≤ 15) (hl : payload.length ≤ maxAlloc) :
    ReadMessage (WriteMessage opcode payload) = (.message opcode payload, []) := by
  have h := ReadMessage_WriteMessage_append opcode payload [] h0 h1 hl
  simpa using h

theorem unmasked_round_trip_witness :
    ReadMessage (WriteMessage 2 [104, 105, 33]) = (.message 2 [104, 105, 33], []) :=
  unmasked_round_trip 2 [104, 105, 33] (by decide) (by decide) (by decide)

/-- C2: for every opcode in 0..15, every payload (a Go slice, so of at most `maxAlloc` bytes)
and every 4-byte mask key, `ReadMessage` on the masked form of the frame
`WriteMessage(opcode, payload)` writes returns `(opcode, payload)` with no error. -/
theorem masked_round_trip (opcode : Int) (payload key : List Nat) (h0 : 0 ≤ opcode)
    (h1 : opcode ≤ 15) (hl : payload.length ≤ maxAlloc) (hk : key.length = 4) :
    ReadMessage (maskedFrame opcode payload key) = (.message opcode payload, []) := by
  obtain ⟨b1, ext, hh, hb, hlen⟩ :=
    readPayloadLen_frameHeader opcode payload.length (maxAlloc_lt hl)
      (key ++ (maskPayload key payload ++ []))
  obtain ⟨hfin, hop⟩ := header_byte opcode h0 h1
  have h := ReadMessage_masked (0x80 ||| byte opcode) (b1 ||| 0x80) payload.length
    (ext ++ (key ++ (maskPayload key payload ++ []))) key (maskPayload key payload) [] hfin
    (or_128_and_128 b1 hb) (by rw [or_128_and_127 b1 hb]; exact hlen) hk
    (maskPayload_length key payload) hl
  rw [hop, unmask_maskPayload] at h
  rw [← h, maskedFrame, hh]
  simp

theorem masked_round_trip_witness :
    ReadMessage (maskedFrame 1 [104, 105, 33, 0, 255] [1, 2, 3, 4])
      = (.message 1 [104, 105, 33, 0, 255], []) :=
  masked_round_trip 1 [104, 105, 33, 0, 255] [1, 2, 3, 4] (by decide) (by decide) (by decide)
    (by decide)

/-- C4: on every stream of at least 2 bytes whose first byte has the FIN bit clear,
`ReadMessage` returns the fragmentation error and leaves every byte after the 2 header bytes
unread. -/
theorem fragmented_rejected (s : List Nat) (h2 : 2 ≤ s.length)
    (hfin : s.getD 0 0 &&& 0x80 = 0) :
    ReadMessage s = (.error .fragmented, s.drop 2) := by
  match s, h2 with
  | b0 :: b1 :: rest, _ =>
    simp only [List.getD_cons_zero] at hfin
    simp [ReadMessage, ReadFull_two, hfin]

theorem fragmented_rejected_witness :
    ReadMessage [0x01, 0x85, 1, 2, 3, 4, 9, 9, 9, 9, 9, 7]
      = (.error .fragmented, [1, 2, 3, 4, 9, 9, 9, 9, 9, 7]) :=
  fragmented_rejected [0x01, 0x85, 1, 2, 3, 4, 9, 9, 9, 9, 9, 7] (by decide) (by decide)

/-- C5: for every opcode in 0..15 and every payload of length `L`, `WriteMessage` writes the
byte `0x80 | opcode`, the length field of `L` (one byte, or 126 and 2 big-endian bytes, or 127
and 8 big-endian bytes), then the payload and nothing else; the big-endian bytes have the value
`L`, and the mask bit of the second byte is clear. -/
theorem encoder_byte_exact (opcode : Int) (payload : List Nat) (h0 : 0 ≤ opcode)
    (h1 : opcode ≤ 15) (hl : payload.length < 2 ^ 63) :
    WriteMessage opcode payload
        = [0x80 ||| opcode.toNat] ++ lengthField payload.length ++ payload ∧
      (payload.length ≤ 125 → lengthField payload.length = [payload.length]) ∧
      (125 < payload.length → payload.length ≤ 65535 →
        ∃ bs, lengthField payload.length = 126 :: bs ∧ bs.length = 2 ∧ (∀ b ∈ bs, b < 256) ∧
          fromBigEndian bs = payload.length) ∧
      (65535 < payload.length →
        ∃ bs, lengthField payload.length = 127 :: bs ∧ bs.length = 8 ∧ (∀ b ∈ bs, b < 256) ∧
          fromBigEndian bs = payload.length) ∧
      (WriteMessage opcode payload).getD 1 0 &&& 0x80 = 0 := by
  have hb : byte opcode = opcode.toNat := by
    interval_cases opcode <;> decide
  refine ⟨?_, ?_, ?_, ?_, ?_⟩
  · simp [WriteMessage, lengthField_eq, hb]
  · intro h
    simp [lengthField, h]
  · intro h3 h4
    have h5 : ¬ payload.length ≤ 125 := by omega
    refine ⟨bigEndian 2 payload.length, by simp [lengthField, h5, h4], by simp [bigEndian], ?_, ?_⟩
    · intro b hb
      simp only [bigEndian, List.mem_map] at hb
      obtain ⟨i, _, rfl⟩ := hb
      exact Nat.mod_lt _ (by norm_num)
    · simp only [bigEndian, List.range_succ, List.range_zero, fromBigEndian]
      simp
      omega
  · intro h3
    have h5 : ¬ payload.length ≤ 125 := by omega
    have h6 : ¬ payload.length ≤ 65535 := by omega
    refine ⟨bigEndian 8 payload.length, by simp [lengthField, h5, h6], by simp [bigEndian], ?_, ?_⟩
    · intro b hb
      simp only [bigEndian, List.mem_map] at hb
      obtain ⟨i, _, rfl⟩ := hb
      exact Nat.mod_lt _ (by norm_num)
    · simp only [bigEndian, List.range_succ, List.range_zero, fromBigEndian]
      simp
      omega
  · obtain ⟨b1, ext, hh, hb1, _⟩ := readPayloadLen_frameHeader opcode payload.length hl []
    simp [WriteMessage, hh, and_128_of_lt b1 hb1]

/-- On every strict prefix of a stream from which `ReadMessage` returns a message and leaves
nothing unread (a frame whose length is within the limit of the allocator), `ReadMessage`
returns an end-of-stream error (`io.EOF` or `io.ErrUnexpectedEOF`). -/
theorem truncated_frame_fails (frame p : List Nat) (opcode : Int) (payload : List Nat)
    (hframe : ReadMessage frame = (.message opcode payload, []))
    (hp : p <+: frame) (hne : p ≠ frame) :
    ReadMessage p = (.error .eof, []) ∨ ReadMessage p = (.error .unexpectedEOF, []) := by
  obtain ⟨q, rfl⟩ := hp
  rcases ReadMessage_extends p q with ⟨e, he, hh⟩ | h
  · rcases hh with rfl | rfl
    · exact Or.inl he
    · exact Or.inr he
  · rw [hframe] at h
    have hq : (ReadMessage p).2 ++ q = [] := (congrArg Prod.snd h).symm
    have hq2 : q = [] := (List.append_eq_nil.mp hq).2
    exact absurd (by simp [hq2]) hne

theorem truncated_frame_fails_witness :
    ReadMessage [0x82, 0x83, 1, 2, 3, 4, 5, 6] = (.error .unexpectedEOF, []) :=
  (truncated_frame_fails [0x82, 0x83, 1, 2, 3, 4, 5, 6, 7] [0x82, 0x83, 1, 2, 3, 4, 5, 6] 2
    [4, 4, 4] (by decide) ⟨[7], rfl⟩ (by decide)).resolve_left (by decide)

theorem encoder_byte_exact_witness :
    WriteMessage 1 [104, 105] = [0x81, 2, 104, 105] ∧
      (WriteMessage 1 [104, 105]).getD 1 0 &&& 0x80 = 0 :=
  ⟨(encoder_byte_exact 1 [104, 105] (by decide) (by decide) (by decide)).1,
    (encoder_byte_exact 1 [104, 105] (by decide) (by decide) (by decide)).2.2.2.2⟩

/-- C7, at an input where it fails: the 10 bytes `81 7F 40 00 00 00 00 00 00 00` are a strict
prefix of a complete unmasked frame with FIN set (64-bit length `2 ^ 62`, then `2 ^ 62` payload
bytes); on the stream that ends after them `payloadLen` is `2 ^ 62`, above the limit of the
allocator, and `ReadMessage` panics when it allocates the payload: it returns no error. -/
theorem truncated_large_frame_panics :
    CompleteFrame ([0x81, 0x7F, 0x40, 0, 0, 0, 0, 0, 0, 0] ++ List.replicate (2 ^ 62) 0) ∧
      [0x81, 0x7F, 0x40, 0, 0, 0, 0, 0, 0, 0]
        <+: [0x81, 0x7F, 0x40, 0, 0, 0, 0, 0, 0, 0] ++ List.replicate (2 ^ 62) 0 ∧
      [0x81, 0x7F, 0x40, 0, 0, 0, 0, 0, 0, 0]
        ≠ [0x81, 0x7F, 0x40, 0, 0, 0, 0, 0, 0, 0] ++ List.replicate (2 ^ 62) 0 ∧
      ReadMessage [0x81, 0x7F, 0x40, 0, 0, 0, 0, 0, 0, 0] = (.panic, []) := by
  refine ⟨?_, ⟨_, rfl⟩, ?_, by decide⟩
  · refine ⟨0x81, 0x7F, [0x40, 0, 0, 0, 0, 0, 0, 0], [], List.replicate (2 ^ 62) 0, rfl, ?_,
      by decide, Or.inr (Or.inr ⟨by decide, rfl, ?_⟩), Or.inr ⟨by decide, rfl⟩⟩
    · intro b hb
      rw [List.mem_append] at hb
      rcases hb with hb | hb
      · revert b
        decide
      · rw [List.eq_of_mem_replicate hb]
        decide
    · rw [List.length_replicate]
      decide
  · intro h
    have h2 := congrArg List.length h
    rw [List.length_append, List.length_replicate] at h2
    have h3 : (2 : Nat) ^ 62 = 4611686018427387904 := by norm_num
    rw [h3] at h2
    simp only [List.length_cons, List.length_nil] at h2
    omega

/-- C6, at the input where it fails: with the length field 127 and the 8 extension bytes
`80 00 00 00 00 00 00 00` (the unsigned value `2 ^ 63`), `payloadLen` is the negative `int`
`-2 ^ 63` and `ReadMessage` panics when it allocates the payload; it reads no payload byte. -/
theorem decoder_length_sign_bit :
    readPayloadLen 127 [0x80, 0, 0, 0, 0, 0, 0, 0, 7, 7] = (.ok (-2 ^ 63), [7, 7]) ∧
      ReadMessage [0x81, 0x7F, 0x80, 0, 0, 0, 0, 0, 0, 0, 7, 7] = (.panic, [7, 7]) :=
  ⟨by rfl, by decide⟩

/-! ## The claims on the hub -/

open Lobby

theorem broadcastLoop_conn (write : Connection → Int → List Nat → Option String)
    (payload : List Nat) (sender : Connection) (clients : List Connection) :
    (broadcastLoop write payload sender clients).map Call.conn
      = clients.filter (fun c => c ≠ sender) := by
  induction clients with
  | nil => rfl
  | cons c cs ih =>
    by_cases h : c = sender
    · simp [broadcastLoop, h, ih]
    · simp [broadcastLoop, h, ih]

theorem broadcastLoop_call (write : Connection → Int → List Nat → Option String)
    (payload : List Nat) (sender : Connection) (clients : List Connection) (call : Call)
    (h : call ∈ broadcastLoop write payload sender clients) :
    call = ⟨call.conn, 1, payload, write call.conn 1 payload⟩ := by
  induction clients with
  | nil => simp [broadcastLoop] at h
  | cons c cs ih =>
    by_cases hc : c = sender
    · simp only [broadcastLoop, hc, if_true] at h
      exact ih h
    · simp only [broadcastLoop, hc, if_false, List.mem_cons] at h
      rcases h with rfl | h
      · rfl
      · exact ih h

/-- C3: for every hub state, room, payload and sender, and whatever error each write returns,
`Broadcast` calls `WriteMessage(1, payload)` exactly once on every member of the room other
than the sender, and every call it makes is such a call: none on the sender, none on a
connection outside the room. -/
theorem broadcast_fan_out (h : Hub) (hwf : h.WF)
    (write : Connection → Int → List Nat → Option String) (roomID : String)
    (payload : List Nat) (sender : Connection) :
    (∀ c, c ∈ h.members roomID → c ≠ sender →
      ((Broadcast h write roomID payload sender).map Call.conn).count c = 1 ∧
        ⟨c, 1, payload, write c 1 payload⟩ ∈ Broadcast h write roomID payload sender) ∧
    (∀ call ∈ Broadcast h write roomID payload sender,
      call.conn ≠ sender ∧ call.conn ∈ h.members roomID ∧ call.opcode = 1 ∧
        call.payload = payload ∧ call.err = write call.conn 1 payload) := by
  unfold Broadcast Hub.members
  cases hr : h.rooms roomID with
  | none => simp
  | some clients =>
    have hnd : clients.Nodup := hwf roomID clients hr
    simp only [Option.getD_some]
    constructor
    · intro c hc hs
      have hmem : c ∈ clients.filter (fun c => c ≠ sender) := by simp [hc, hs]
      constructor
      · rw [broadcastLoop_conn]
        exact List.count_eq_one_of_mem (hnd.filter _) hmem
      · rw [← broadcastLoop_conn write payload sender clients, List.mem_map] at hmem
        obtain ⟨call, hcall, rfl⟩ := hmem
        have h2 := broadcastLoop_call write payload sender clients call hcall
        rw [← h2]
        exact hcall
    · intro call hcall
      have h2 := broadcastLoop_call write payload sender clients call hcall
      have hmem : call.conn ∈ clients.filter (fun c => c ≠ sender) := by
        rw [← broadcastLoop_conn write payload sender clients]
        exact List.mem_map_of_mem _ hcall
      simp only [List.mem_filter, decide_eq_true_eq] at hmem
      refine ⟨hmem.2, hmem.1, ?_, ?_, ?_⟩
      · rw [h2]
      · rw [h2]
      · rw [h2]

theorem sampleHub_WF : sampleHub.WF := by
  intro roomID clients h
  simp only [sampleHub] at h
  split at h
  · cases h
    decide
  · cases h

theorem broadcast_fan_out_witness :
    ((Broadcast sampleHub sampleWrite "r1" [104, 105] 2).map Call.conn).count 1 = 1 ∧
      ⟨1, 1, [104, 105], some "broken pipe"⟩ ∈ Broadcast sampleHub sampleWrite "r1" [104, 105] 2 :=
  (broadcast_fan_out sampleHub sampleHub_WF sampleWrite "r1" [104, 105] 2).1 1 (by decide)
    (by decide)

/-! ## The claims on the handshake -/

theorem response_concat (accept : List Nat) :
    (([] ++ str "HTTP/1.1 101 Switching Protocols\r\n") ++ str "Upgrade: websocket\r\n")
        ++ str "Connection: Upgrade\r\n"
        ++ (str "Sec-WebSocket-Accept: " ++ accept ++ str "\r\n\r\n")
      = handshakeResponse accept := by
  have h : (([] ++ str "HTTP/1.1 101 Switching Protocols\r\n") ++ str "Upgrade: websocket\r\n")
        ++ str "Connection: Upgrade\r\n" ++ str "Sec-WebSocket-Accept: "
      = str "HTTP/1.1 101 Switching Protocols\r\nUpgrade: websocket\r\nConnection: Upgrade\r\nSec-WebSocket-Accept: " := by
    decide
  rw [handshakeResponse, ← h]
  simp only [List.append_assoc]

/-- A handshake that succeeds has written the response for the accept value of the key, and
nothing else. -/
theorem Upgrade_ok (ToLower : List Nat → List Nat) (w : Transport) (r : Request) (e : Effects)
    (h : Upgrade ToLower w r = (.ok (), e)) :
    e = ⟨true, handshakeResponse (acceptKey (r.headerGet (str "Sec-WebSocket-Key"))), true,
      false⟩ := by
  unfold Upgrade at h
  split at h
  · cases h
  split at h
  · cases h
  simp only at h
  split at h
  · cases h
  split at h
  · cases h
  split at h
  · cases h
  split at h
  · cases h
  split at h
  · cases h
  split at h
  · cases h
  split at h
  · cases h
  split at h
  · cases h
  rw [response_concat] at h
  exact (congrArg Prod.snd h).symm

set_option maxRecDepth 100000 in
theorem acceptKey_vector :
    acceptKey (str "dGhlIHNhbXBsZSBub25jZQ==") = str "s3pPLMBiTxaQ9kYGzzhZRbK+xOo=" := by
  decide

/-- A handshake that passes validation on a transport that can be taken over and whose
writes succeed writes the response for the accept value of the key. -/
theorem Upgrade_succeeds (ToLower : List Nat → List Nat) (w : Transport) (r : Request)
    (h1 : str "upgrade" <:+: ToLower (r.headerGet (str "Connection")))
    (h2 : ToLower (r.headerGet (str "Upgrade")) = str "websocket")
    (h3 : r.headerGet (str "Sec-WebSocket-Key") ≠ [])
    (h4 : w.hijacker = true) (h5 : w.hijackErr = none)
    (h6 : ∀ i, i < 4 → w.writeErr i = none) (h7 : w.flushErr = none) :
    Upgrade ToLower w r = (.ok (), ⟨true,
      handshakeResponse (acceptKey (r.headerGet (str "Sec-WebSocket-Key"))), true, false⟩) := by
  rw [← response_concat]
  simp only [Upgrade, h1, not_true_eq_false, if_false, h2, ne_eq, h3, h4, h5, h6 0 (by decide),
    h6 1 (by decide), h6 2 (by decide), h6 3 (by decide), h7, Bool.not_true,
    Bool.false_eq_true]

theorem handshakeResponse_vector :
    handshakeResponse (str "s3pPLMBiTxaQ9kYGzzhZRbK+xOo=")
      = str "HTTP/1.1 101 Switching Protocols\r\nUpgrade: websocket\r\nConnection: Upgrade\r\nSec-WebSocket-Accept: s3pPLMBiTxaQ9kYGzzhZRbK+xOo=\r\n\r\n" := by
  decide

/-- C8: a handshake that completes writes, as the value of the Sec-WebSocket-Accept header,
`base64(SHA-1(key ++ "258EAFA5-E914-47DA-95CA-C5AB0DC85B11"))` for the key header of the
request; every other handshake that completes with the same key header writes the same bytes,
whatever the rest of the request and the transport; and for the key
`dGhlIHNhbXBsZSBub25jZQ==` the value written is `s3pPLMBiTxaQ9kYGzzhZRbK+xOo=`. -/
theorem accept_key_computation (ToLower : List Nat → List Nat) (w : Transport) (r : Request)
    (h1 : str "upgrade" <:+: ToLower (r.headerGet (str "Connection")))
    (h2 : ToLower (r.headerGet (str "Upgrade")) = str "websocket")
    (h3 : r.headerGet (str "Sec-WebSocket-Key") ≠ [])
    (h4 : w.hijacker = true) (h5 : w.hijackErr = none)
    (h6 : ∀ i, i < 4 → w.writeErr i = none) (h7 : w.flushErr = none) :
    Upgrade ToLower w r = (.ok (), ⟨true,
      str "HTTP/1.1 101 Switching Protocols\r\nUpgrade: websocket\r\nConnection: Upgrade\r\nSec-WebSocket-Accept: "
        ++ Base64.EncodeToString (Sha1.Sum (r.headerGet (str "Sec-WebSocket-Key")
          ++ str "258EAFA5-E914-47DA-95CA-C5AB0DC85B11"))
        ++ str "\r\n\r\n", true, false⟩) ∧
    (∀ lower2 w2 r2 e2, Upgrade lower2 w2 r2 = (.ok (), e2) →
      r2.headerGet (str "Sec-WebSocket-Key") = r.headerGet (str "Sec-WebSocket-Key") →
      e2.written = (Upgrade ToLower w r).2.written) ∧
    (r.headerGet (str "Sec-WebSocket-Key") = str "dGhlIHNhbXBsZSBub25jZQ==" →
      (Upgrade ToLower w r).2.written
        = str "HTTP/1.1 101 Switching Protocols\r\nUpgrade: websocket\r\nConnection: Upgrade\r\nSec-WebSocket-Accept: s3pPLMBiTxaQ9kYGzzhZRbK+xOo=\r\n\r\n") := by
  have hs := Upgrade_succeeds ToLower w r h1 h2 h3 h4 h5 h6 h7
  refine ⟨hs, ?_, ?_⟩
  · intro lower2 w2 r2 e2 he hk
    rw [Upgrade_ok lower2 w2 r2 e2 he, hs, hk]
  · intro hk
    rw [hs, hk, acceptKey_vector, handshakeResponse_vector]

theorem accept_key_computation_witness :
    (Upgrade asciiToLower goodTransport sampleRequest).2.written
      = str "HTTP/1.1 101 Switching Protocols\r\nUpgrade: websocket\r\nConnection: Upgrade\r\nSec-WebSocket-Accept: s3pPLMBiTxaQ9kYGzzhZRbK+xOo=\r\n\r\n" :=
  (accept_key_computation asciiToLower goodTransport sampleRequest (by decide) (by decide)
    (by decide) (by decide) (by decide) (by decide) (by decide)).2.2 (by decide)

/-- C9: `Upgrade` fails with the missing-upgrade error when the lower-cased Connection header
does not contain "upgrade", else with the unsupported-protocol error when the lower-cased
Upgrade header is not "websocket", else with the missing-key error when the key header is
empty; the three errors and their texts are pairwise distinct; in each case the transport is
not taken over and nothing is written. -/
theorem handshake_validation (ToLower : List Nat → List Nat) (w : Transport) (r : Request) :
    (¬ (str "upgrade" <:+: ToLower (r.headerGet (str "Connection"))) →
      Upgrade ToLower w r = (.error .missingUpgrade, untouched)) ∧
    (str "upgrade" <:+: ToLower (r.headerGet (str "Connection")) →
      ToLower (r.headerGet (str "Upgrade")) ≠ str "websocket" →
      Upgrade ToLower w r = (.error .unsupportedProtocol, untouched)) ∧
    (str "upgrade" <:+: ToLower (r.headerGet (str "Connection")) →
      ToLower (r.headerGet (str "Upgrade")) = str "websocket" →
      r.headerGet (str "Sec-WebSocket-Key") = [] →
      Upgrade ToLower w r = (.error .missingKey, untouched)) ∧
    (UpgradeErr.missingUpgrade ≠ UpgradeErr.unsupportedProtocol ∧
      UpgradeErr.missingUpgrade ≠ UpgradeErr.missingKey ∧
      UpgradeErr.unsupportedProtocol ≠ UpgradeErr.missingKey ∧
      UpgradeErr.missingUpgrade.Error ≠ UpgradeErr.unsupportedProtocol.Error ∧
      UpgradeErr.missingUpgrade.Error ≠ UpgradeErr.missingKey.Error ∧
      UpgradeErr.unsupportedProtocol.Error ≠ UpgradeErr.missingKey.Error) ∧
    untouched = ⟨false, [], false, false⟩ := by
  refine ⟨?_, ?_, ?_, by decide, rfl⟩
  · intro h
    simp only [Upgrade, h, not_false_eq_true, if_true, untouched]
  · intro h1 h2
    simp only [Upgrade, h1, not_true_eq_false, if_false, h2, ne_eq, not_false_eq_true, if_true,
      untouched]
  · intro h1 h2 h3
    simp only [Upgrade, h1, not_true_eq_false, if_false, h2, ne_eq, h3, if_true, untouched]

/-- C10: for every request that passes validation, on a transport that can be taken over and
on which the four writes and the flush succeed, `Upgrade` succeeds and the bytes it writes are
exactly the status line, the Upgrade and Connection headers, the Sec-WebSocket-Accept header
with the accept value of the key, and a blank line. -/
theorem handshake_response (ToLower : List Nat → List Nat) (w : Transport) (r : Request)
    (h1 : str "upgrade" <:+: ToLower (r.headerGet (str "Connection")))
    (h2 : ToLower (r.headerGet (str "Upgrade")) = str "websocket")
    (h3 : r.headerGet (str "Sec-WebSocket-Key") ≠ [])
    (h4 : w.hijacker = true) (h5 : w.hijackErr = none)
    (h6 : ∀ i, i < 4 → w.writeErr i = none) (h7 : w.flushErr = none) :
    Upgrade ToLower w r = (.ok (), ⟨true,
      str "HTTP/1.1 101 Switching Protocols\r\nUpgrade: websocket\r\nConnection: Upgrade\r\nSec-WebSocket-Accept: "
        ++ acceptKey (r.headerGet (str "Sec-WebSocket-Key")) ++ str "\r\n\r\n", true, false⟩) := by
  have h := response_concat (acceptKey (r.headerGet (str "Sec-WebSocket-Key")))
  rw [handshakeResponse] at h
  rw [← h]
  simp only [Upgrade, h1, not_true_eq_false, if_false, h2, ne_eq, h3, h4, h5, h6 0 (by decide),
    h6 1 (by decide), h6 2 (by decide), h6 3 (by decide), h7, Bool.not_true,
    Bool.false_eq_true]

theorem handshake_response_witness :
    Upgrade asciiToLower goodTransport sampleRequest = (.ok (), ⟨true,
      str "HTTP/1.1 101 Switching Protocols\r\nUpgrade: websocket\r\nConnection: Upgrade\r\nSec-WebSocket-Accept: "
        ++ acceptKey (sampleRequest.headerGet (str "Sec-WebSocket-Key")) ++ str "\r\n\r\n",
      true, false⟩) :=
  handshake_response asciiToLower goodTransport sampleRequest (by decide) (by decide) (by decide)
    (by decide) (by decide) (by decide) (by decide)

/-! ## The claims on registration and cleanup -/

theorem Hub.ext_rooms {h1 h2 : Hub} (h : ∀ r, h1.rooms r = h2.rooms r) : h1 = h2 := by
  cases h1
  cases h2
  simp only [Hub.mk.injEq]
  exact funext h

theorem Register_rooms_self (h : Hub) (roomID : String) (conn : Connection) :
    (Register h roomID conn).rooms roomID
      = some (if conn ∈ h.members roomID then h.members roomID
          else h.members roomID ++ [conn]) := by
  unfold Register
  cases hr : h.rooms roomID with
  | none => simp [Hub.set, Hub.members, hr]
  | some clients => simp [Hub.set, Hub.members, hr]

theorem Register_rooms_other (h : Hub) (roomID r : String) (conn : Connection)
    (hne : r ≠ roomID) : (Register h roomID conn).rooms r = h.rooms r := by
  unfold Register
  cases hr : h.rooms roomID with
  | none => simp [Hub.set, hne]
  | some clients => simp [Hub.set, hne]

theorem cleanup_rooms_other (h : Hub) (roomID r : String) (conn : Connection)
    (hne : r ≠ roomID) : (cleanup roomID conn h).rooms r = h.rooms r := by
  unfold cleanup
  cases hr : h.rooms roomID with
  | none => rfl
  | some clients =>
    by_cases hl : (clients.erase conn).length = 0
    · simp [hl, Hub.delete, hne]
    · simp [hl, Hub.set, hne]

theorem cleanup_rooms_self (h : Hub) (roomID : String) (conn : Connection)
    (clients : List Connection) (hr : h.rooms roomID = some clients) :
    (cleanup roomID conn h).rooms roomID
      = if clients.erase conn = [] then none else some (clients.erase conn) := by
  unfold cleanup
  by_cases hl : (clients.erase conn).length = 0
  · simp [hr, hl, Hub.delete, List.length_eq_zero.mp hl]
  · have hl2 : clients.erase conn ≠ [] := fun hc => hl (by simp [hc])
    simp [hr, hl, Hub.set, hl2]

theorem cleanup_absent (h : Hub) (roomID : String) (conn : Connection)
    (hr : h.rooms roomID = none) : cleanup roomID conn h = h := by
  simp [cleanup, hr]

theorem Register_Inv (h : Hub) (roomID : String) (conn : Connection) (hi : h.Inv) :
    (Register h roomID conn).Inv := by
  intro r clients hr
  by_cases hne : r = roomID
  · subst hne
    rw [Register_rooms_self] at hr
    have hnd : (h.members r).Nodup := by
      unfold Hub.members
      cases hm : h.rooms r with
      | none => simp
      | some cs => simpa using (hi r cs hm).2
    cases hr
    by_cases hc : conn ∈ h.members r
    · simp only [hc, if_true]
      exact ⟨List.ne_nil_of_mem hc, hnd⟩
    · simp only [hc, if_false]
      refine ⟨by simp, ?_⟩
      rw [List.nodup_append]
      exact ⟨hnd, by simp, by simpa using hc⟩
  · rw [Register_rooms_other h roomID r conn hne] at hr
    exact hi r clients hr

theorem cleanup_Inv (h : Hub) (roomID : String) (conn : Connection) (hi : h.Inv) :
    (cleanup roomID conn h).Inv := by
  intro r clients hr
  by_cases hne : r = roomID
  · subst hne
    cases hm : h.rooms r with
    | none =>
      rw [cleanup_absent h r conn hm] at hr
      exact hi r clients hr
    | some cs =>
      rw [cleanup_rooms_self h r conn cs hm] at hr
      by_cases he : cs.erase conn = []
      · simp [he] at hr
      · simp only [he, if_false, Option.some.injEq] at hr
        subst hr
        exact ⟨he, (hi r cs hm).2.erase conn⟩
  · rw [cleanup_rooms_other h roomID r conn hne] at hr
    exact hi r clients hr

theorem foldl_Inv (ops : List Op) (h : Hub) (hi : h.Inv) : (ops.foldl Op.apply h).Inv := by
  induction ops generalizing h with
  | nil => exact hi
  | cons op ops ih =>
    simp only [List.foldl]
    apply ih
    cases op with
    | register roomID conn => exact Register_Inv h roomID conn hi
    | cleanup roomID conn => exact cleanup_Inv h roomID conn hi

theorem run_Inv (ops : List Op) : (run ops).Inv :=
  foldl_Inv ops NewHub (by intro r cs hr; simp [NewHub] at hr)

/-- C11: in every hub state reached from `NewHub()` by a sequence of `Register` calls and
cleanup calls, every room present in the mapping has a member set that is not empty. -/
theorem no_empty_room (ops : List Op) (roomID : String) (clients : List Connection)
    (h : (run ops).rooms roomID = some clients) : clients ≠ [] :=
  (run_Inv ops roomID clients h).1

theorem no_empty_room_witness : ([2] : List Connection) ≠ [] :=
  no_empty_room [.register "r1" 1, .register "r1" 2, .cleanup "r1" 1, .register "r2" 1,
    .cleanup "r2" 1, .cleanup "r2" 1] "r1" [2] (by decide)

theorem erase_eq_nil_iff (clients : List Connection) (conn : Connection)
    (hnd : clients.Nodup) : clients.erase conn = [] ↔ ∀ c ∈ clients, c = conn := by
  rw [List.eq_nil_iff_forall_not_mem]
  constructor
  · intro h c hc
    by_contra hne
    exact h c ((hnd.mem_erase_iff).mpr ⟨hne, hc⟩)
  · intro h c hc
    have h2 := (hnd.mem_erase_iff).mp hc
    exact h2.1 (h c h2.2)

theorem cleanup_members (h : Hub) (hwf : h.WF) (roomID : String) (conn c : Connection) :
    c ∈ (cleanup roomID conn h).members roomID ↔ c ≠ conn ∧ c ∈ h.members roomID := by
  unfold Hub.members
  cases hr : h.rooms roomID with
  | none => simp [cleanup_absent h roomID conn hr, hr]
  | some clients =>
    have hnd := hwf roomID clients hr
    rw [cleanup_rooms_self h roomID conn clients hr]
    by_cases he : clients.erase conn = []
    · have h2 := (erase_eq_nil_iff clients conn hnd).mp he
      simp only [he, if_true, Option.getD_none, List.not_mem_nil, Option.getD_some, false_iff,
        not_and]
      exact fun hne hc => hne (h2 c hc)
    · simp only [he, if_false, Option.getD_some]
      exact hnd.mem_erase_iff

theorem cleanup_idem (h : Hub) (hwf : h.WF) (roomID : String) (conn : Connection) :
    cleanup roomID conn (cleanup roomID conn h) = cleanup roomID conn h := by
  cases hr : h.rooms roomID with
  | none => rw [cleanup_absent h roomID conn hr, cleanup_absent h roomID conn hr]
  | some clients =>
    have hnd := hwf roomID clients hr
    have h1 := cleanup_rooms_self h roomID conn clients hr
    by_cases he : clients.erase conn = []
    · simp only [he, if_true] at h1
      exact cleanup_absent _ roomID conn h1
    · simp only [he, if_false] at h1
      have hnot : conn ∉ clients.erase conn := fun hc => (hnd.mem_erase_iff.mp hc).1 rfl
      have h2 := cleanup_rooms_self _ roomID conn _ h1
      rw [List.erase_of_not_mem hnot] at h2
      simp only [he, if_false] at h2
      apply Hub.ext_rooms
      intro r
      by_cases hne : r = roomID
      · subst hne
        rw [h2, h1]
      · rw [cleanup_rooms_other _ roomID r conn hne]

/-- C12: on every hub state, the cleanup function of `(roomID, conn)` removes `conn` from the
members of `roomID` and keeps every other member; it deletes `roomID` from the mapping exactly
when no other member is left; it leaves every other room as it is; it changes nothing when
`roomID` is absent; and a second call in a row changes nothing more. -/
theorem cleanup_removes_one_pairing (h : Hub) (hwf : h.WF) (roomID : String)
    (conn : Connection) :
    conn ∉ (cleanup roomID conn h).members roomID ∧
    (∀ c, c ≠ conn → (c ∈ (cleanup roomID conn h).members roomID ↔ c ∈ h.members roomID)) ∧
    (∀ clients, h.rooms roomID = some clients →
      ((cleanup roomID conn h).rooms roomID = none ↔ ∀ c ∈ clients, c = conn)) ∧
    (∀ r, r ≠ roomID → (cleanup roomID conn h).rooms r = h.rooms r) ∧
    (h.rooms roomID = none → cleanup roomID conn h = h) ∧
    cleanup roomID conn (cleanup roomID conn h) = cleanup roomID conn h := by
  refine ⟨?_, ?_, ?_, ?_, cleanup_absent h roomID conn, cleanup_idem h hwf roomID conn⟩
  · intro hc
    exact ((cleanup_members h hwf roomID conn conn).mp hc).1 rfl
  · intro c hne
    rw [cleanup_members h hwf roomID conn c]
    exact ⟨fun hc => hc.2, fun hc => ⟨hne, hc⟩⟩
  · intro clients hr
    rw [cleanup_rooms_self h roomID conn clients hr,
      ← erase_eq_nil_iff clients conn (hwf roomID clients hr)]
    by_cases he : clients.erase conn = []
    · simp [he]
    · simp [he]
  · intro r hne
    exact cleanup_rooms_other h roomID r conn hne

theorem cleanup_removes_one_pairing_witness :
    (2 : Connection) ∉ (cleanup "r1" 2 sampleHub).members "r1" ∧
      ((1 : Connection) ∈ (cleanup "r1" 2 sampleHub).members "r1" ↔
        (1 : Connection) ∈ sampleHub.members "r1") ∧
      cleanup "r1" 2 (cleanup "r1" 2 sampleHub) = cleanup "r1" 2 sampleHub :=
  ⟨(cleanup_removes_one_pairing sampleHub sampleHub_WF "r1" 2).1,
    (cleanup_removes_one_pairing sampleHub sampleHub_WF "r1" 2).2.1 1 (by decide),
    (cleanup_removes_one_pairing sampleHub sampleHub_WF "r1" 2).2.2.2.2.2⟩

/-- C13: in every hub state in which `conn` is the only member of `roomID`, after the cleanup
of `(roomID, conn)` the room is absent from the mapping, a `Broadcast` to it makes no call of
`WriteMessage` for any payload and sender, and `Register(roomID, c2)` gives a room whose
members are exactly `c2`. -/
theorem last_member_cleanup (h : Hub) (roomID : String) (conn : Connection)
    (hr : h.rooms roomID = some [conn]) :
    (cleanup roomID conn h).rooms roomID = none ∧
    (∀ write payload sender, Broadcast (cleanup roomID conn h) write roomID payload sender = []) ∧
    (∀ c2, (Register (cleanup roomID conn h) roomID c2).rooms roomID = some [c2]) := by
  have h1 : (cleanup roomID conn h).rooms roomID = none := by
    rw [cleanup_rooms_self h roomID conn [conn] hr]
    simp
  refine ⟨h1, ?_, ?_⟩
  · intro write payload sender
    simp [Broadcast, h1]
  · intro c2
    rw [Register_rooms_self]
    simp [Hub.members, h1]

theorem last_member_cleanup_witness :
    (cleanup "r1" 7 (run [.register "r1" 7])).rooms "r1" = none ∧
      (∀ write payload sender,
        Broadcast (cleanup "r1" 7 (run [.register "r1" 7])) write "r1" payload sender = []) ∧
      (∀ c2, (Register (cleanup "r1" 7 (run [.register "r1" 7])) "r1" c2).rooms "r1"
        = some [c2]) :=
  last_member_cleanup (run [.register "r1" 7]) "r1" 7 (by decide)

/-! ## Masking -/

theorem unmaskFrom_involution (key payload : List Nat) (i : Nat) :
    unmaskFrom key i (unmaskFrom key i payload) = payload := by
  induction payload generalizing i with
  | nil => rfl
  | cons b bs ih =>
    simp only [unmaskFrom, ih]
    rw [Nat.xor_assoc, Nat.xor_self, Nat.xor_zero]

theorem unmaskFrom_length (key payload : List Nat) (i : Nat) :
    (unmaskFrom key i payload).length = payload.length := by
  induction payload generalizing i with
  | nil => rfl
  | cons b bs ih => simp only [unmaskFrom, List.length_cons, ih]

theorem unmaskFrom_getD (key payload : List Nat) (i j : Nat) (hj : j < payload.length) :
    (unmaskFrom key i payload).getD j 0 = payload.getD j 0 ^^^ key.getD ((i + j) % 4) 0 := by
  induction payload generalizing i j with
  | nil => simp at hj
  | cons b bs ih =>
    cases j with
    | zero => simp [unmaskFrom]
    | succ j =>
      simp only [unmaskFrom, List.getD_cons_succ]
      rw [ih (i + 1) j (by simpa using hj)]
      have h : i + 1 + j = i + (j + 1) := by omega
      rw [h]

/-- C14: the unmasking step of the decoder replaces byte `i` of the payload by
`payload[i] XOR key[i mod 4]`, keeps the length of the payload, and applied twice with the same
key gives the payload back, for every payload and every key. -/
theorem masking_involution (key payload : List Nat) :
    unmask key (unmask key payload) = payload ∧
    (unmask key payload).length = payload.length ∧
    (∀ i, i < payload.length →
      (unmask key payload).getD i 0 = payload.getD i 0 ^^^ key.getD (i % 4) 0) := by
  refine ⟨unmaskFrom_involution key payload 0, unmaskFrom_length key payload 0, ?_⟩
  intro i hi
  have h := unmaskFrom_getD key payload 0 i hi
  rw [Nat.zero_add] at h
  exact h

/-! ## The claims on the room service -/

theorem hasPlayer_iff (player : String) (players : List String) :
    Rooms.hasPlayer player players = true ↔ player ∈ players := by
  induction players with
  | nil => simp [Rooms.hasPlayer]
  | cons p ps ih =>
    by_cases h : p = player
    · simp [Rooms.hasPlayer, h]
    · have h2 : ¬ player = p := fun hc => h hc.symm
      simp [Rooms.hasPlayer, h, h2, ih]

theorem Create_Inv (s : Rooms.Service) (generateID : String) (now : Nat) (name : String)
    (hi : s.Inv) : (Rooms.Create s generateID now name).2.Inv := by
  intro id room hr
  simp only [Rooms.Create, Rooms.Service.set] at hr
  split at hr
  · cases hr
    simp
  · exact hi id room hr

theorem AddPlayer_Inv (s : Rooms.Service) (id player : String) (hi : s.Inv) :
    (Rooms.AddPlayer s id player).2.Inv := by
  unfold Rooms.AddPlayer
  by_cases hp : player = ""
  · simpa [hp] using hi
  simp only [hp, if_false]
  cases hr : s.rooms id with
  | none => exact hi
  | some room =>
    obtain ⟨hlen, hnd, hne⟩ := hi id room hr
    simp only
    by_cases hfull : room.Players.length ≥ 4
    · simpa [hfull] using hi
    simp only [hfull, if_false]
    by_cases hdup : Rooms.hasPlayer player room.Players = true
    · simpa [hdup] using hi
    simp only [hdup, Bool.false_eq_true, if_false]
    have hnot : player ∉ room.Players := fun hc => hdup ((hasPlayer_iff player _).mpr hc)
    intro id2 room2 hr2
    simp only [Rooms.Service.set] at hr2
    split at hr2
    · cases hr2
      refine ⟨by simp; omega, ?_, ?_⟩
      · rw [List.nodup_append]
        exact ⟨hnd, by simp, by simpa using hnot⟩
      · simp only [List.mem_append, List.mem_singleton, not_or]
        exact ⟨hne, fun hc => hp hc.symm⟩
    · exact hi id2 room2 hr2

theorem rooms_foldl_Inv (ops : List Rooms.Op) (s : Rooms.Service) (hi : s.Inv) :
    (ops.foldl Rooms.Op.apply s).Inv := by
  induction ops generalizing s with
  | nil => exact hi
  | cons op ops ih =>
    simp only [List.foldl]
    apply ih
    cases op with
    | create generateID now name => exact Create_Inv s generateID now name hi
    | addPlayer id player => exact AddPlayer_Inv s id player hi

theorem rooms_run_Inv (ops : List Rooms.Op) : (Rooms.run ops).Inv :=
  rooms_foldl_Inv ops Rooms.NewService (by intro id room hr; simp [Rooms.NewService] at hr)

/-- C15, at an input where it fails: the room "r" holds the four players alice, bob, carol
and dave, and `AddPlayer("r", "alice")` returns the error "room is full". -/
theorem duplicate_in_full_room :
    (Rooms.fullService.rooms "r").map Rooms.Room.Players
        = some ["alice", "bob", "carol", "dave"] ∧
      (Rooms.AddPlayer Rooms.fullService "r" "alice").1 = (Rooms.Room.zero, some .full) := by
  decide

/-- C15, amended: in every service state reached from `NewService()` by `Create` and
`AddPlayer` calls, for every stored room with fewer than 4 players that already contains the
player `p`, `AddPlayer(id, p)` returns that room, with its player list as it is, and no error,
and the service is unchanged. -/
theorem duplicate_player_noop (ops : List Rooms.Op) (id p : String) (room : Rooms.Room)
    (hr : (Rooms.run ops).rooms id = some room) (hp : p ∈ room.Players)
    (hlen : room.Players.length < 4) :
    Rooms.AddPlayer (Rooms.run ops) id p = ((room, none), Rooms.run ops) := by
  obtain ⟨_, _, hne⟩ := rooms_run_Inv ops id room hr
  have h1 : p ≠ "" := fun hc => hne (hc ▸ hp)
  have h2 : ¬ room.Players.length ≥ 4 := by omega
  have h3 : Rooms.hasPlayer p room.Players = true := (hasPlayer_iff p _).mpr hp
  simp only [Rooms.AddPlayer, h1, if_false, hr, h2, h3, if_true]

theorem duplicate_player_noop_witness :
    Rooms.AddPlayer (Rooms.run [.create "r" 0 "", .addPlayer "r" "alice"]) "r" "alice"
      = ((⟨"r", "Quick Match", 0, ["alice"]⟩, none),
        Rooms.run [.create "r" 0 "", .addPlayer "r" "alice"]) :=
  duplicate_player_noop [.create "r" 0 "", .addPlayer "r" "alice"] "r" "alice"
    ⟨"r", "Quick Match", 0, ["alice"]⟩ (by decide) (by decide) (by decide)

/-- C16: for every service state, name and generated id, `Create` returns no error and a
room with the generated id, the given name ("Quick Match" for the empty name) and no player;
`Get` with the id of that room then returns that room and no error; and `Get` with an id that
is not stored returns an error. -/
theorem create_then_get (s : Rooms.Service) (generateID : String) (now : Nat) (name : String) :
    (Rooms.Create s generateID now name).1.2 = none ∧
    (Rooms.Create s generateID now name).1.1.ID = generateID ∧
    (Rooms.Create s generateID now name).1.1.Name = (if name = "" then "Quick Match" else name) ∧
    (Rooms.Create s generateID now name).1.1.Players = [] ∧
    Rooms.Get (Rooms.Create s generateID now name).2 (Rooms.Create s generateID now name).1.1.ID
      = ((Rooms.Create s generateID now name).1.1, none) ∧
    (∀ id, s.rooms id = none → (Rooms.Get s id).2 = some (.notFound id)) := by
  refine ⟨rfl, rfl, rfl, rfl, ?_, ?_⟩
  · simp [Rooms.Get, Rooms.Create, Rooms.Service.set]
  · intro id hid
    simp [Rooms.Get, hid]

/-- C18: in every service state reached from `NewService()` by `Create` and `AddPlayer`
calls, every stored room has at most 4 players and no player name twice; and in every service
state `AddPlayer` with an empty player name, an unknown room id or a room of 4 players (or
more) returns an error and leaves the service as it is. -/
theorem capacity_and_uniqueness (ops : List Rooms.Op) (id : String) (room : Rooms.Room)
    (hr : (Rooms.run ops).rooms id = some room) :
    (room.Players.length ≤ 4 ∧ room.Players.Nodup) ∧
    (∀ (s : Rooms.Service) (id2 player : String),
      (player = "" ∨ s.rooms id2 = none ∨
        ∃ room2, s.rooms id2 = some room2 ∧ 4 ≤ room2.Players.length) →
      (Rooms.AddPlayer s id2 player).1.2 ≠ none ∧ (Rooms.AddPlayer s id2 player).2 = s) := by
  obtain ⟨h1, h2, _⟩ := rooms_run_Inv ops id room hr
  refine ⟨⟨h1, h2⟩, ?_⟩
  intro s id2 player h
  unfold Rooms.AddPlayer
  by_cases hp : player = ""
  · simp [hp]
  simp only [hp, if_false]
  rcases h with h | h | ⟨room2, h, hfull⟩
  · exact absurd h hp
  · simp [h]
  · have hge : room2.Players.length ≥ 4 := hfull
    simp [h, hge]

theorem capacity_and_uniqueness_witness :
    (["alice", "bob", "carol", "dave"].length ≤ 4 ∧
      (["alice", "bob", "carol", "dave"] : List String).Nodup) ∧
    (∀ (s : Rooms.Service) (id2 player : String),
      (player = "" ∨ s.rooms id2 = none ∨
        ∃ room2, s.rooms id2 = some room2 ∧ 4 ≤ room2.Players.length) →
      (Rooms.AddPlayer s id2 player).1.2 ≠ none ∧ (Rooms.AddPlayer s id2 player).2 = s) :=
  capacity_and_uniqueness [.create "r" 0 "", .addPlayer "r" "alice", .addPlayer "r" "bob",
    .addPlayer "r" "carol", .addPlayer "r" "dave", .addPlayer "r" "erin"] "r"
    ⟨"r", "Quick Match", 0, ["alice", "bob", "carol", "dave"]⟩ (by decide)

/-! ## The decoder on arbitrary streams -/

/-- C19, at an input where it fails: on the masked header `82 FF` with the 8 extension bytes
`FF FF FF FF FF FF FF FF`, followed by a mask key, `payloadLen` is the negative `int` `-1` when
the payload is allocated, and `ReadMessage` panics: it returns neither a message nor an
error. -/
theorem negative_length_panics :
    readPayloadLen (0xFF &&& 0x7F) [0xFF, 0xFF, 0xFF, 0xFF, 0xFF, 0xFF, 0xFF, 0xFF, 1, 2, 3, 4]
        = (.ok (-1), [1, 2, 3, 4]) ∧
      ReadMessage [0x82, 0xFF, 0xFF, 0xFF, 0xFF, 0xFF, 0xFF, 0xFF, 0xFF, 0xFF, 1, 2, 3, 4]
        = (.panic, []) :=
  ⟨by rfl, by decide⟩

/-- C20: for every complete frame `f` (a stream from which `ReadMessage` returns a message
and leaves nothing unread) and every `rest`, `ReadMessage` on `f ++ rest` returns the message
of `f` and leaves exactly `rest` unread; and for all messages with opcodes in 0..15 (and
payloads that are Go slices, so of at most `maxAlloc` bytes), two `ReadMessage` calls in a row
on the bytes of `WriteMessage(m1)` followed by the bytes of `WriteMessage(m2)` return `m1`,
then `m2`, and leave nothing unread. -/
theorem consumes_exactly_one_frame (f rest : List Nat) (opcode : Int) (payload : List Nat)
    (hf : ReadMessage f = (.message opcode payload, [])) :
    ReadMessage (f ++ rest) = (.message opcode payload, rest) ∧
    (∀ (o1 o2 : Int) (p1 p2 : List Nat), 0 ≤ o1 → o1 ≤ 15 → 0 ≤ o2 → o2 ≤ 15 →
      p1.length ≤ maxAlloc → p2.length ≤ maxAlloc →
      (ReadMessage (WriteMessage o1 p1 ++ WriteMessage o2 p2)).1 = .message o1 p1 ∧
        ReadMessage (ReadMessage (WriteMessage o1 p1 ++ WriteMessage o2 p2)).2
          = (.message o2 p2, [])) := by
  constructor
  · rcases ReadMessage_extends f rest with ⟨e, he, _⟩ | h
    · rw [hf] at he
      cases he
    · rw [hf] at h
      simpa using h
  · intro o1 o2 p1 p2 h1 h2 h3 h4 h5 h6
    rw [ReadMessage_WriteMessage_append o1 p1 (WriteMessage o2 p2) h1 h2 h5]
    have h := ReadMessage_WriteMessage_append o2 p2 [] h3 h4 h6
    simp only [List.append_nil] at h
    exact ⟨rfl, h⟩

theorem consumes_exactly_one_frame_witness :
    ReadMessage ([0x81, 0x82, 1, 2, 3, 4, 5, 6] ++ [0x82, 0x00, 9])
      = (.message 1 [4, 4], [0x82, 0x00, 9]) :=
  (consumes_exactly_one_frame [0x81, 0x82, 1, 2, 3, 4, 5, 6] [0x82, 0x00, 9] 1 [4, 4]
    (by decide)).1

end GoShoot
